import Mathlib

/-!
Formal model of the Moorhen web synthesiser (vanilla JavaScript over the Web
Audio API).  The repository ships several near-duplicate engine variants; the
ones embedded here are the `MoorhenSynth` class of `Moorhen_v2.0.0/static/js/
synth.js` together with its UI controller `ui.js`, the `HimalayanSynth`
variant, and the second `MoorhenSynth` variant that carries the sitar voice
and the per-instrument sequencer randomisation.

Pure fragments of the source are embedded as Lean functions over `ℚ` (and
over `ℝ` where the source computes real powers such as `Math.pow(2, s/12)`);
stateful fragments become explicit state-passing functions on record types.
`Math.random()` draws are passed in explicitly, either as rational arguments
or as streams `ℕ → ℚ`, and are assumed to lie in `[0, 1)` exactly where a
property needs that.  Scheduled `setTimeout` work is modelled as explicit
pending-task queues on the state, with separate functions that fire the
pending tasks.
-/

/-! ### Expression-pad cutoff curves (ui.js `updateFromPosition`,
    HimalayanSynth `updateExpression`) -/

/-- The x-to-filter-cutoff map of `ui.js` (`updateFromPosition`, also the MIDI
CC 1/74 path in `handleMIDICC`): `const filterFreq = 200 * Math.pow(40, relX)`. -/
noncomputable def filterCutoff (x : ℝ) : ℝ := 200 * (40 : ℝ) ^ x

/-- The x-to-filter-cutoff map of the `HimalayanSynth` variant
(`updateExpression`): `this.expression.filterCutoff = 200 + x * 7800`. -/
noncomputable def updateExpressionCutoff (x : ℝ) : ℝ := 200 + x * 7800

/-! ### Drone base frequency (synth.js `startDrone` / `setDroneBase`) -/

/-- The drone base-frequency map used by `startDrone`,
`updateDroneFrequencies` and `setDroneBase`:
`65.41 * Math.pow(2, semitones / 12)` (reference tone: the note C2, 65.41 Hz). -/
noncomputable def baseFrequency (s : ℝ) : ℝ := 65.41 * (2 : ℝ) ^ (s / 12)

/-! ### Gain-envelope schedules (synth.js `playBowl`, second variant
    `createSitarVoice`) -/

/-- One scheduled automation event on a Web Audio gain `AudioParam`:
`setValueAtTime`, `linearRampToValueAtTime` or `exponentialRampToValueAtTime`.
Times are relative to the trigger time `now`. -/
inductive EnvEvent where
  | setValue (time value : ℚ)
  | linearRamp (endTime target : ℚ)
  | expRamp (endTime target : ℚ)
deriving DecidableEq, Repr

/-- The three gain-envelope schedules of `playBowl` in `synth.js`
(`volume = this.instrumentVolumes.bowls` sampled at the trigger). -/
def playBowlEnvelopes (volume : ℚ) : List (List EnvEvent) :=
  [ [EnvEvent.setValue 0 0, EnvEvent.linearRamp 0.01 (volume * 0.4),
     EnvEvent.expRamp 4 0.001],
    [EnvEvent.setValue 0 0, EnvEvent.linearRamp 0.01 (volume * 0.2),
     EnvEvent.expRamp 3 0.001],
    [EnvEvent.setValue 0 0, EnvEvent.linearRamp 0.01 (volume * 0.1),
     EnvEvent.expRamp 2 0.001] ]

/-- The main gain envelope of `createSitarVoice` in the second engine variant
(`volume = this.instrumentVolumes.strings`). -/
def sitarMainEnvelope (volume : ℚ) : List EnvEvent :=
  [EnvEvent.setValue 0 0, EnvEvent.linearRamp 0.01 (0.5 * volume),
   EnvEvent.expRamp 0.1 (0.2 * volume), EnvEvent.expRamp 3 0.001]

/-- The sympathetic-string gain envelope `osc2Gain` of `createSitarVoice`:
`osc2Gain.gain.setValueAtTime(0.15, time)` followed by
`osc2Gain.gain.exponentialRampToValueAtTime(0.001, time + 2)`. -/
def sitarSympatheticEnvelope : List EnvEvent :=
  [EnvEvent.setValue 0 0.15, EnvEvent.expRamp 2 0.001]

/-- An envelope schedule whose first event pins the gain to exactly `0` at the
trigger time (`setValueAtTime(0, now)` before any ramp). -/
def startsAtZeroAtTrigger (env : List EnvEvent) : Bool :=
  match env with
  | EnvEvent.setValue t v :: _ => t == 0 && v == 0
  | _ => false

/-- An envelope schedule whose last event is an exponential ramp to the
epsilon floor `0.001` (a literal zero target is invalid for
`exponentialRampToValueAtTime`). -/
def endsAtFloor : List EnvEvent → Bool
  | [] => false
  | [EnvEvent.expRamp _ target] => target == 0.001
  | [_] => false
  | _ :: e :: rest => endsAtFloor (e :: rest)

/-- C5 counterexample: at pad position `x = 1/2` the `HimalayanSynth`
expression map yields `200 + 3900 = 4100` Hz while the exponential curve
`200 * 40 ^ x` yields `200 * sqrt 40 < 1400` Hz, so the variant's pad does
not follow the claimed exponential curve. -/
theorem updateExpressionCutoff_not_exponential :
    updateExpressionCutoff (1 / 2) ≠ filterCutoff (1 / 2) := by
  unfold updateExpressionCutoff filterCutoff
  have hpow : ((40 : ℝ) ^ ((1 : ℝ) / 2)) ^ (2 : ℕ) = 40 := by
    rw [← Real.rpow_natCast ((40 : ℝ) ^ ((1 : ℝ) / 2)) 2,
      ← Real.rpow_mul (by norm_num : (0 : ℝ) ≤ 40)]
    norm_num
  have hnn : (0 : ℝ) ≤ (40 : ℝ) ^ ((1 : ℝ) / 2) :=
    Real.rpow_nonneg (by norm_num) _
  have hlt : (40 : ℝ) ^ ((1 : ℝ) / 2) < 7 := by nlinarith [hpow, hnn]
  intro h
  nlinarith [hlt, hnn, h]

/-- C5 (amended): the `ui.js` pad maps x by the exponential curve
`200 * 40 ^ x`, hitting `200` at `0` and `8000` at `1`, strictly increasing
and continuous on `[0, 1]`; the `HimalayanSynth` pad instead maps x linearly
by `200 + 7800 * x`, which shares the endpoints, strict monotonicity and
continuity but is a different curve. -/
theorem expression_cutoff_curves :
    filterCutoff 0 = 200 ∧ filterCutoff 1 = 8000 ∧
    StrictMonoOn filterCutoff (Set.Icc 0 1) ∧
    ContinuousOn filterCutoff (Set.Icc 0 1) ∧
    updateExpressionCutoff 0 = 200 ∧ updateExpressionCutoff 1 = 8000 ∧
    StrictMonoOn updateExpressionCutoff (Set.Icc 0 1) ∧
    ContinuousOn updateExpressionCutoff (Set.Icc 0 1) := by
  have hmono : StrictMono filterCutoff := by
    intro a b hab
    unfold filterCutoff
    have h40 : (1 : ℝ) < 40 := by norm_num
    have := (Real.rpow_lt_rpow_left_iff h40).2 hab
    nlinarith [this]
  have hcont : Continuous filterCutoff := by
    unfold filterCutoff
    exact continuous_const.mul
      (continuous_iff_continuousAt.2 fun x =>
        Real.continuousAt_const_rpow (by norm_num))
  have hlin : StrictMono updateExpressionCutoff := by
    intro a b hab
    unfold updateExpressionCutoff
    nlinarith [hab]
  have hlincont : Continuous updateExpressionCutoff := by
    unfold updateExpressionCutoff
    exact continuous_const.add (continuous_id.mul continuous_const)
  refine ⟨?_, ?_, hmono.strictMonoOn _, hcont.continuousOn, ?_, ?_,
    hlin.strictMonoOn _, hlincont.continuousOn⟩
  · unfold filterCutoff
    rw [Real.rpow_zero]
    norm_num
  · unfold filterCutoff
    rw [Real.rpow_one]
    norm_num
  · unfold updateExpressionCutoff
    norm_num
  · unfold updateExpressionCutoff
    norm_num

/-- C6: the drone base-frequency map `65.41 * 2 ^ (s / 12)` is strictly
increasing in the semitone offset, and moving up 12 semitones exactly doubles
the frequency. -/
theorem baseFrequency_strictMono_octave :
    StrictMono baseFrequency ∧
    ∀ s : ℝ, baseFrequency (s + 12) = 2 * baseFrequency s := by
  constructor
  · intro a b hab
    unfold baseFrequency
    have h2 : (1 : ℝ) < 2 := one_lt_two
    have hdiv : a / 12 < b / 12 := by linarith
    have := (Real.rpow_lt_rpow_left_iff h2).2 hdiv
    nlinarith [this]
  · intro s
    unfold baseFrequency
    have h12 : (s + 12) / 12 = s / 12 + 1 := by ring
    rw [h12, Real.rpow_add (by norm_num : (0 : ℝ) < 2), Real.rpow_one]
    ring

/-- C1 counterexample: the sympathetic gain envelope of `createSitarVoice`
starts at `0.15` at the trigger time, not at `0`, so not every gain envelope
scheduled by a trigger call is pinned to `0` at the trigger time. -/
theorem sitar_sympathetic_not_zero_at_trigger :
    startsAtZeroAtTrigger sitarSympatheticEnvelope = false ∧
    sitarSympatheticEnvelope.head? = some (EnvEvent.setValue 0 0.15) := by
  constructor
  · norm_num [startsAtZeroAtTrigger, sitarSympatheticEnvelope]
  · norm_num [sitarSympatheticEnvelope]

/-- C1 (amended): every `playBowl` gain envelope is pinned to exactly `0` at
trigger time before its ramps and decays exponentially to the `0.001` floor;
the `createSitarVoice` main envelope does the same, but its sympathetic
envelope instead opens at the value `0.15` at trigger time (while still
decaying to the same `0.001` floor). -/
theorem gain_envelopes_zero_start_and_floor (v w : ℚ) :
    ((playBowlEnvelopes v).all startsAtZeroAtTrigger) = true ∧
    ((playBowlEnvelopes v).all endsAtFloor) = true ∧
    startsAtZeroAtTrigger (sitarMainEnvelope w) = true ∧
    endsAtFloor (sitarMainEnvelope w) = true ∧
    endsAtFloor sitarSympatheticEnvelope = true ∧
    sitarSympatheticEnvelope.head? = some (EnvEvent.setValue 0 0.15) := by
  refine ⟨rfl, ?_, rfl, ?_, ?_, rfl⟩
  · norm_num [playBowlEnvelopes, endsAtFloor]
  · norm_num [sitarMainEnvelope, endsAtFloor]
  · norm_num [sitarSympatheticEnvelope, endsAtFloor]

/-! ### The `MoorhenSynth` (v2.0.0 `synth.js`) drone lifecycle -/

/-- One in-flight voice of the v2.0.0 synth, as a trigger call bakes it: the
effective semitone offset its fundamental is computed from
(`scaleIntervals[noteIndex] + pitchBend`, both sampled at the trigger) and the
instrument volume multiplier sampled at the trigger. -/
structure V2Voice where
  semis : ℚ
  volume : ℚ
deriving DecidableEq, Repr

/-- One oscillator of the v2.0.0 drone bank: a creation id (modelling the
JavaScript object identity that `osc.stop()` acts on), the frequency ratio to
the drone base, the semitone offset the base is derived from, and the additive
random detune (Hz) applied at creation. The oscillator's frequency is
`ratio * baseFrequency semis + detuneHz`. -/
structure V2Osc where
  oid : ℕ
  ratio : ℚ
  semis : ℚ
  detuneHz : ℚ
deriving DecidableEq, Repr

/-- State of the v2.0.0 `MoorhenSynth` relevant to triggering, pitch bend and
the drone: `initialized` stands for a non-null `audioContext`; `pendingStops`
are the oscillator-id lists captured by `setTimeout` teardown closures that
have not fired yet; `stoppedOscIds` the oscillators already stopped; `voices`
the in-flight one-shot voices living in the audio graph. -/
structure V2Synth where
  initialized : Bool
  pitchBend : ℚ
  bowlsVolume : ℚ
  droneActive : Bool
  droneBaseNote : ℚ
  droneTargetVolume : ℚ
  droneOscillators : List V2Osc
  nextOscId : ℕ
  stoppedOscIds : List ℕ
  pendingStops : List (List ℕ)
  voices : List V2Voice
deriving DecidableEq, Repr

/-- The fixed frequency ratios of the v2.0.0 drone bank (`frequencies =
[baseFreq, baseFreq * 2, baseFreq * 3, baseFreq * 1.5]`). -/
def v2DroneRatios : List ℚ := [1, 2, 3, 1.5]

/-- `startDrone(baseNote, volume)` of `synth.js`: returns immediately when
`droneActive`; otherwise sets the flag and the stored base/volume, creates one
oscillator per ratio (each with random detune `(Math.random() - 0.5) * 0.5`)
and pushes them onto `droneOscillators`. -/
def v2StartDrone (s : V2Synth) (baseNote volume : ℚ) (rands : ℕ → ℚ) : V2Synth :=
  if s.droneActive then s else
  { s with
    droneActive := true
    droneBaseNote := baseNote
    droneTargetVolume := volume
    droneOscillators := s.droneOscillators ++
      (v2DroneRatios.mapIdx fun i r =>
        ⟨s.nextOscId + i, r, baseNote, (rands i - 0.5) * 0.5⟩)
    nextOscId := s.nextOscId + v2DroneRatios.length }

/-- `stopDrone()` of `synth.js`: returns immediately when inactive; otherwise
clears the flag, copies the bank into a `setTimeout` teardown closure
(`oscillatorsToStop = [...this.droneOscillators]`), and clears the bank
reference immediately (`this.droneOscillators = []`). -/
def v2StopDrone (s : V2Synth) : V2Synth :=
  if s.droneActive = false then s else
  { s with
    droneActive := false
    droneOscillators := []
    pendingStops := s.pendingStops ++ [s.droneOscillators.map V2Osc.oid] }

/-- Firing every pending `setTimeout` teardown: each closure stops exactly the
oscillators it captured when it was scheduled. -/
def v2RunAllPendingStops (s : V2Synth) : V2Synth :=
  { s with
    pendingStops := []
    stoppedOscIds := s.stoppedOscIds ++ s.pendingStops.flatten }

/-- Well-formedness of the oscillator-id counter: every id the state mentions
was allocated below `nextOscId`. Holds for the initial state and is preserved
by every operation. -/
def V2Synth.OscIdsBounded (s : V2Synth) : Prop :=
  (∀ o ∈ s.droneOscillators, o.oid < s.nextOscId) ∧
  (∀ task ∈ s.pendingStops, ∀ i ∈ task, i < s.nextOscId) ∧
  (∀ i ∈ s.stoppedOscIds, i < s.nextOscId)

/-! ### The `HimalayanSynth` variant: deferred drone creation -/

/-- The six sequenced instruments of the `HimalayanSynth` variant. -/
inductive Instr where
  | bowls | wind | strings | horn | moorhen | oystercatcher
deriving DecidableEq, Repr

/-- One sequencer cell: `{ noteIndex: 0-6, active: true/false }`. -/
structure Cell where
  noteIndex : ℕ
  active : Bool
deriving DecidableEq, Repr

/-- One keyboard-held voice of the `HimalayanSynth` variant: its frequency and
the per-oscillator `detune.value`s (cents). -/
structure H000Voice where
  freq : ℚ
  detunes : List ℚ
deriving DecidableEq, Repr

/-- State of the `HimalayanSynth` variant: triggering, drone and sequencer.
`droneVoices` records the `ratio` stored on each drone voice already created;
`dronePending` the ratios whose `setTimeout(..., i * 500)` creation callback
has not fired yet. -/
structure H000State where
  isInitialized : Bool
  pitchBend : ℚ
  activeVoices : List (String × H000Voice)
  droneVoices : List ℚ
  dronePending : List ℚ
  droneBaseSemitones : ℚ
  currentStep : ℕ
  randomness : ℚ
  patterns : Instr → List Cell
  instrumentVolumes : Instr → ℚ

/-- `this.scales.droneRatios` of the `HimalayanSynth` variant. -/
def h000DroneRatios : List ℚ := [1, 1.5, 2, 3]

/-- `startDrone()` of the `HimalayanSynth` variant: returns when not
initialized or when `droneVoices.length > 0`; otherwise schedules one deferred
voice creation per ratio via `setTimeout(() => { ... this.droneVoices.push(
voice); }, i * 500)` — the bank is still empty when the call returns. -/
def h000StartDrone (s : H000State) : H000State :=
  if s.isInitialized = false then s
  else if s.droneVoices.length > 0 then s
  else { s with dronePending := s.dronePending ++ h000DroneRatios }

/-- Firing every pending deferred drone-voice creation. -/
def h000RunAllPendingCreates (s : H000State) : H000State :=
  { s with
    dronePending := []
    droneVoices := s.droneVoices ++ s.dronePending }

/-- The `HimalayanSynth` state right after `init()`: initialized, no voices,
no drone, sequencer at rest with the default 16-cell patterns. -/
def h000Init : H000State :=
  { isInitialized := true
    pitchBend := 0
    activeVoices := []
    droneVoices := []
    dronePending := []
    droneBaseSemitones := 0
    currentStep := 0
    randomness := 0
    patterns := fun _ => (List.range 16).map fun i => ⟨i % 7, false⟩
    instrumentVolumes := fun _ => 0.7 }

/-- C2 counterexample: in the `HimalayanSynth` variant, calling `startDrone`
twice in a row before any of its deferred `setTimeout` creations has fired
schedules two full banks: once the deferred work runs, `droneVoices` holds 8
voices, twice the nominal bank size of 4. -/
theorem startDrone_double_bank :
    (h000RunAllPendingCreates (h000StartDrone (h000StartDrone h000Init))).droneVoices.length = 8 ∧
    h000DroneRatios.length = 4 ∧ (8 : ℕ) ≠ 4 := by
  refine ⟨?_, rfl, by omega⟩
  simp [h000Init, h000StartDrone, h000RunAllPendingCreates, h000DroneRatios]

/-- C2 (amended): the v2.0.0 `startDrone` is idempotent — when the drone is
already active a call is a complete no-op, and from an inactive state two
calls in a row leave exactly one four-oscillator bank.  The `HimalayanSynth`
`startDrone` is a no-op only once at least one deferred voice creation has
landed in `droneVoices`; before that its guard does not fire, so two
immediately consecutive calls schedule two banks (see the counterexample). -/
theorem startDrone_idempotent (s : V2Synth) (b v b2 v2 : ℚ) (r r2 : ℕ → ℚ)
    (h : H000State) :
    (s.droneActive = true → v2StartDrone s b v r = s) ∧
    (s.droneActive = false → s.droneOscillators = [] →
      (v2StartDrone (v2StartDrone s b v r) b2 v2 r2).droneOscillators.length = 4 ∧
      (v2StartDrone (v2StartDrone s b v r) b2 v2 r2) = v2StartDrone s b v r) ∧
    (h.droneVoices.length > 0 → h000StartDrone h = h) := by
  have hno : ∀ (t : V2Synth) (b' v' : ℚ) (r' : ℕ → ℚ), t.droneActive = true →
      v2StartDrone t b' v' r' = t := by
    intro t b' v' r' ht
    simp [v2StartDrone, ht]
  refine ⟨hno s b v r, fun hinact hempty => ?_, fun hpos => ?_⟩
  · have h1 : (v2StartDrone s b v r).droneActive = true := by
      simp [v2StartDrone, hinact]
    rw [hno _ b2 v2 r2 h1]
    refine ⟨?_, rfl⟩
    simp [v2StartDrone, hinact, hempty, v2DroneRatios]
  · unfold h000StartDrone
    rcases hi : h.isInitialized with _ | _
    · simp
    · simp [hpos]

/-- The oscillator bank created by `startDrone` on an inactive state, written
out: four fresh oscillators with consecutive ids starting at `nextOscId`. -/
theorem v2NewBank_explicit (b : ℚ) (r : ℕ → ℚ) (n : ℕ) :
    (v2DroneRatios.mapIdx fun i rr =>
        (⟨n + i, rr, b, (r i - 0.5) * 0.5⟩ : V2Osc)) =
      [⟨n, 1, b, (r 0 - 0.5) * 0.5⟩, ⟨n + 1, 2, b, (r 1 - 0.5) * 0.5⟩,
       ⟨n + 2, 3, b, (r 2 - 0.5) * 0.5⟩, ⟨n + 3, 1.5, b, (r 3 - 0.5) * 0.5⟩] := by
  rfl

/-- C3: from any well-formed active-drone state, `stopDrone` immediately
clears the bank reference, and after `startDrone` recreates a bank and every
scheduled teardown fires, the bank holds exactly one nominal bank's worth of
oscillators (four), none of which was stopped by any teardown — the deferred
teardowns stop exactly the previously created oscillators, the old bank's
among them. -/
theorem stopDrone_then_startDrone_isolated (s : V2Synth) (b v : ℚ) (r : ℕ → ℚ)
    (hwf : s.OscIdsBounded) (hact : s.droneActive = true) :
    (v2StopDrone s).droneOscillators = [] ∧
    (v2RunAllPendingStops (v2StartDrone (v2StopDrone s) b v r)).droneOscillators =
      (v2StartDrone (v2StopDrone s) b v r).droneOscillators ∧
    (v2StartDrone (v2StopDrone s) b v r).droneOscillators.length = 4 ∧
    (∀ o ∈ (v2StartDrone (v2StopDrone s) b v r).droneOscillators,
        o.oid ∉ (v2RunAllPendingStops (v2StartDrone (v2StopDrone s) b v r)).stoppedOscIds) ∧
    (∀ o ∈ s.droneOscillators,
        o.oid ∈ (v2RunAllPendingStops (v2StartDrone (v2StopDrone s) b v r)).stoppedOscIds) := by
  obtain ⟨hwfBank, hwfPending, hwfStopped⟩ := hwf
  have hstop : v2StopDrone s =
      { s with
        droneActive := false
        droneOscillators := []
        pendingStops := s.pendingStops ++ [s.droneOscillators.map V2Osc.oid] } := by
    simp [v2StopDrone, hact]
  have hstart : v2StartDrone (v2StopDrone s) b v r =
      { s with
        droneActive := true
        droneBaseNote := b
        droneTargetVolume := v
        droneOscillators := v2DroneRatios.mapIdx fun i rr =>
          ⟨s.nextOscId + i, rr, b, (r i - 0.5) * 0.5⟩
        nextOscId := s.nextOscId + v2DroneRatios.length
        pendingStops := s.pendingStops ++ [s.droneOscillators.map V2Osc.oid] } := by
    rw [hstop]
    simp [v2StartDrone]
  have hstopped :
      (v2RunAllPendingStops (v2StartDrone (v2StopDrone s) b v r)).stoppedOscIds =
        s.stoppedOscIds ++
          (s.pendingStops ++ [s.droneOscillators.map V2Osc.oid]).flatten := by
    rw [hstart]
    simp [v2RunAllPendingStops]
  have hmemStopped : ∀ j, j ∈ (v2RunAllPendingStops
        (v2StartDrone (v2StopDrone s) b v r)).stoppedOscIds → j < s.nextOscId := by
    intro j hj
    rw [hstopped] at hj
    rcases List.mem_append.1 hj with hj | hj
    · exact hwfStopped j hj
    · obtain ⟨task, htask, hjt⟩ := List.mem_flatten.1 hj
      rcases List.mem_append.1 htask with htask | htask
      · exact hwfPending task htask j hjt
      · rcases List.mem_singleton.1 htask with rfl
        obtain ⟨o, ho, rfl⟩ := List.mem_map.1 hjt
        exact hwfBank o ho
  refine ⟨by simp [hstop], rfl, ?_, ?_, ?_⟩
  · rw [hstart]
    simp [v2NewBank_explicit]
  · intro o ho
    rw [hstart] at ho
    simp only [v2NewBank_explicit] at ho
    have hbig : s.nextOscId ≤ o.oid := by
      simp only [List.mem_cons, List.not_mem_nil, or_false] at ho
      rcases ho with rfl | rfl | rfl | rfl <;> simp
    intro hmem
    exact absurd (hmemStopped o.oid hmem) (by omega)
  · intro o ho
    rw [hstopped]
    refine List.mem_append.2 (Or.inr ?_)
    refine List.mem_flatten.2 ⟨s.droneOscillators.map V2Osc.oid,
      List.mem_append.2 (Or.inr (List.mem_singleton.2 rfl)),
      List.mem_map.2 ⟨o, ho, rfl⟩⟩

/-- An example well-formed active-drone state: one freshly started bank. -/
def v2ActiveExample : V2Synth :=
  { initialized := true
    pitchBend := 0
    bowlsVolume := 0.7
    droneActive := true
    droneBaseNote := 0
    droneTargetVolume := 0.3
    droneOscillators := [⟨0, 1, 0, 0⟩, ⟨1, 2, 0, 0⟩, ⟨2, 3, 0, 0⟩, ⟨3, 1.5, 0, 0⟩]
    nextOscId := 4
    stoppedOscIds := []
    pendingStops := []
    voices := [] }

/-- Witness for C3 at the example active state. -/
theorem stopDrone_then_startDrone_isolated_witness :
    (v2StopDrone v2ActiveExample).droneOscillators = [] ∧
    (v2RunAllPendingStops (v2StartDrone (v2StopDrone v2ActiveExample) 0 0.3
          fun _ => 1 / 2)).droneOscillators =
      (v2StartDrone (v2StopDrone v2ActiveExample) 0 0.3 fun _ => 1 / 2).droneOscillators ∧
    (v2StartDrone (v2StopDrone v2ActiveExample) 0 0.3 fun _ => 1 / 2).droneOscillators.length = 4 ∧
    (∀ o ∈ (v2StartDrone (v2StopDrone v2ActiveExample) 0 0.3 fun _ => 1 / 2).droneOscillators,
        o.oid ∉ (v2RunAllPendingStops (v2StartDrone (v2StopDrone v2ActiveExample) 0 0.3
          fun _ => 1 / 2)).stoppedOscIds) ∧
    (∀ o ∈ v2ActiveExample.droneOscillators,
        o.oid ∈ (v2RunAllPendingStops (v2StartDrone (v2StopDrone v2ActiveExample) 0 0.3
          fun _ => 1 / 2)).stoppedOscIds) :=
  stopDrone_then_startDrone_isolated v2ActiveExample 0 0.3 (fun _ => 1 / 2)
    ⟨by decide, by simp [v2ActiveExample], by simp [v2ActiveExample]⟩ rfl

/-! ### Pitch bend (v2.0.0 `setPitchBend` / `updateDroneFrequencies`,
    `HimalayanSynth` `setPitchBend`) -/

/-- `this.scaleIntervals` of the v2.0.0 synth (C minor pentatonic). -/
def scaleIntervals : List ℚ := [0, 3, 5, 7, 10, 12, 15]

/-- The semitone offset `getFrequency(noteIndex)` plays at:
`this.scaleIntervals[noteIndex] || 0` plus the current pitch bend
(the produced frequency is `261.63 * 2 ^ (result / 12)` Hz). -/
def getFrequencySemis (pitchBend : ℚ) (noteIndex : ℕ) : ℚ :=
  scaleIntervals.getD noteIndex 0 + pitchBend

/-- The frequency (Hz) a modelled drone oscillator currently plays at. -/
noncomputable def V2Osc.freqHz (o : V2Osc) : ℝ :=
  (o.ratio : ℝ) * baseFrequency (o.semis : ℝ) + (o.detuneHz : ℝ)

/-- The retune walk of `updateDroneFrequencies`: oscillator `i` of the bank is
sent to `frequencies[i]` (ratio `v2DroneRatios[i]` over the effective base)
whenever `frequencies[i]` exists; the glide lands exactly on the target, so
the creation detune is gone after a retune. -/
def v2RetuneBank (base : ℚ) : ℕ → List V2Osc → List V2Osc
  | _, [] => []
  | i, o :: rest =>
      (if i < v2DroneRatios.length then
        { o with ratio := v2DroneRatios.getD i 0, semis := base, detuneHz := 0 }
      else o) :: v2RetuneBank base (i + 1) rest

/-- `updateDroneFrequencies()` of `synth.js`: recomputes the base from
`droneBaseNote + pitchBend` and glides every bank oscillator to its ratio
over that base. -/
def v2UpdateDroneFrequencies (s : V2Synth) : V2Synth :=
  { s with droneOscillators :=
      v2RetuneBank (s.droneBaseNote + s.pitchBend) 0 s.droneOscillators }

/-- `setPitchBend(semitones)` of `synth.js`: stores the bend, then retunes the
drone if (and only if) it is active. -/
def v2SetPitchBend (s : V2Synth) (semitones : ℚ) : V2Synth :=
  let s1 := { s with pitchBend := semitones }
  if s1.droneActive then v2UpdateDroneFrequencies s1 else s1

/-- `playBowl(noteIndex)` of `synth.js`: no initialization guard — with a null
`audioContext` the read of `this.audioContext.currentTime` throws a
`TypeError`; otherwise the voice is scheduled with the frequency and the
bowls volume both sampled at the trigger, and baked into the voice. -/
def v2PlayBowl (s : V2Synth) (noteIndex : ℕ) : Except String (V2Synth × V2Voice) :=
  if s.initialized = false then
    Except.error "TypeError: cannot read currentTime of null audioContext"
  else
    let voice : V2Voice := ⟨getFrequencySemis s.pitchBend noteIndex, s.bowlsVolume⟩
    Except.ok ({ s with voices := s.voices ++ [voice] }, voice)

/-- The detune rewrite of the `HimalayanSynth` `setPitchBend` applied to one
voice's oscillators: each gets `(Math.random() - 0.5) * 5 + value * 100`
cents, consuming one draw per oscillator starting at stream position `k`. -/
def h000BendDetunes (value : ℚ) (rands : ℕ → ℚ) : ℕ → List ℚ → List ℚ
  | _, [] => []
  | k, _ :: rest =>
      ((rands k - 0.5) * 5 + value * 100) :: h000BendDetunes value rands (k + 1) rest

/-- The `HimalayanSynth` `setPitchBend` walk over `activeVoices`. -/
def h000BendVoices (value : ℚ) (rands : ℕ → ℚ) :
    ℕ → List (String × H000Voice) → List (String × H000Voice)
  | _, [] => []
  | k, (key, v) :: rest =>
      (key, { v with detunes := h000BendDetunes value rands k v.detunes }) ::
        h000BendVoices value rands (k + v.detunes.length) rest

/-- `setPitchBend(value)` of the `HimalayanSynth` variant: stores the bend in
`expression.pitchBend` and rewrites the oscillator detunes of every voice in
`activeVoices`; the drone voices are not touched and not retuned. -/
def h000SetPitchBend (s : H000State) (value : ℚ) (rands : ℕ → ℚ) : H000State :=
  { s with
    pitchBend := value
    activeVoices := h000BendVoices value rands 0 s.activeVoices }

/-- The `h000Init` state with one held bowl voice whose single modelled
oscillator sits at detune `0`. -/
def h000WithHeldVoice : H000State :=
  { h000Init with activeVoices := [("a", ⟨130.81, [0]⟩)] }

/-- C4 counterexample: in the `HimalayanSynth` variant a later
`setPitchBend(2)` rewrites the oscillator detune of an in-flight held voice
from `0` to `200` cents, so a pitch-bend change is not baked in at trigger
time only — it retroactively moves a live non-drone voice. -/
theorem setPitchBend_mutates_held_voice :
    (h000SetPitchBend h000WithHeldVoice 2 fun _ => 1 / 2).activeVoices =
      [("a", ⟨130.81, [200]⟩)] ∧
    (h000SetPitchBend h000WithHeldVoice 2 fun _ => 1 / 2).activeVoices ≠
      h000WithHeldVoice.activeVoices := by
  have h : (h000SetPitchBend h000WithHeldVoice 2 fun _ => 1 / 2).activeVoices =
      [("a", ⟨130.81, [200]⟩)] := by
    simp only [h000SetPitchBend, h000WithHeldVoice, h000Init, h000BendVoices,
      h000BendDetunes]
    norm_num
  refine ⟨h, ?_⟩
  rw [h]
  simp only [h000WithHeldVoice, h000Init, ne_eq, List.cons.injEq, Prod.mk.injEq,
    H000Voice.mk.injEq]
  intro hcon
  have h200 : (200 : ℚ) = 0 := by
    have h2 := hcon.1.2.2
    simp at h2
  norm_num at h200

/-- C4 (amended): in the v2.0.0 synth, pitch bend is sampled once at trigger
time and baked into the triggered voice (`playBowl` reads `pitchBend` and the
bowls volume at the trigger), a later `setPitchBend` leaves every in-flight
voice untouched, and the drone — exactly when active — is immediately retuned
so each bank oscillator lands on its ratio times the base frequency shifted by
`droneBaseNote + pitchBend` semitones.  In the `HimalayanSynth` variant,
however, `setPitchBend` leaves the drone voices untouched and instead rewrites
the oscillator detunes of the held (non-drone) voices, as the counterexample
exhibits. -/
theorem setPitchBend_bakes_and_retunes (s : V2Synth) (b : ℚ) (n : ℕ)
    (h : H000State) (value : ℚ) (rands : ℕ → ℚ) :
    (v2SetPitchBend s b).voices = s.voices ∧
    (v2SetPitchBend s b).pitchBend = b ∧
    (s.droneActive = false →
      (v2SetPitchBend s b).droneOscillators = s.droneOscillators) ∧
    (∀ o0 o1 o2 o3 : V2Osc, s.droneActive = true →
      s.droneOscillators = [o0, o1, o2, o3] →
      (v2SetPitchBend s b).droneOscillators =
        [⟨o0.oid, 1, s.droneBaseNote + b, 0⟩, ⟨o1.oid, 2, s.droneBaseNote + b, 0⟩,
         ⟨o2.oid, 3, s.droneBaseNote + b, 0⟩, ⟨o3.oid, 1.5, s.droneBaseNote + b, 0⟩] ∧
      ∀ o ∈ (v2SetPitchBend s b).droneOscillators,
        o.freqHz = (o.ratio : ℝ) * baseFrequency ((s.droneBaseNote + b : ℚ) : ℝ)) ∧
    (s.initialized = true →
      v2PlayBowl s n = Except.ok
        ({ s with voices :=
            s.voices ++ [⟨scaleIntervals.getD n 0 + s.pitchBend, s.bowlsVolume⟩] },
         ⟨scaleIntervals.getD n 0 + s.pitchBend, s.bowlsVolume⟩)) ∧
    (h000SetPitchBend h value rands).droneVoices = h.droneVoices ∧
    (h000SetPitchBend h value rands).dronePending = h.dronePending ∧
    (h000SetPitchBend h value rands).pitchBend = value := by
  refine ⟨?_, ?_, ?_, ?_, ?_, rfl, rfl, rfl⟩
  · unfold v2SetPitchBend v2UpdateDroneFrequencies
    rcases hd : s.droneActive with _ | _ <;> simp [hd]
  · unfold v2SetPitchBend v2UpdateDroneFrequencies
    rcases hd : s.droneActive with _ | _ <;> simp [hd]
  · intro hd
    unfold v2SetPitchBend v2UpdateDroneFrequencies
    simp [hd]
  · intro o0 o1 o2 o3 hd hlist
    have hres : (v2SetPitchBend s b).droneOscillators =
        [⟨o0.oid, 1, s.droneBaseNote + b, 0⟩, ⟨o1.oid, 2, s.droneBaseNote + b, 0⟩,
         ⟨o2.oid, 3, s.droneBaseNote + b, 0⟩, ⟨o3.oid, 1.5, s.droneBaseNote + b, 0⟩] := by
      unfold v2SetPitchBend v2UpdateDroneFrequencies
      simp [hd, hlist, v2RetuneBank, v2DroneRatios]
    refine ⟨hres, ?_⟩
    intro o ho
    rw [hres] at ho
    simp only [List.mem_cons, List.not_mem_nil, or_false] at ho
    rcases ho with rfl | rfl | rfl | rfl <;> simp [V2Osc.freqHz]
  · intro hinit
    simp [v2PlayBowl, hinit, getFrequencySemis]

/-! ### Sequencer step advance (`HimalayanSynth` `advanceSequencerStep`) -/

/-- `advanceSequencerStep()` of the `HimalayanSynth` variant, as a function of
the current pointer and the `Math.random()` draws it may consume (`r1` the
branch test or the fully-random draw, `r2` the jump draw).  JavaScript's `%`
truncates towards zero, hence the `(x % 16 + 16) % 16` double wrap in the
source; on that composite the truncating and the Euclidean readings of `%`
agree, so `%` here is Lean's `Int.emod`. -/
def advanceSequencerStep (randomness : ℚ) (currentStep : ℤ) (r1 r2 : ℚ) : ℤ :=
  if randomness = 0 then (currentStep + 1) % 16
  else if 1 ≤ randomness then ⌊r1 * 16⌋
  else if r1 < randomness then
    let jumpRange : ℤ := ⌈randomness * 15⌉
    let jump : ℤ := ⌊r2 * ((jumpRange : ℚ) * 2 + 1)⌋ - jumpRange
    ((currentStep + jump) % 16 + 16) % 16
  else (currentStep + 1) % 16

/-- The step pointer after `n` ticks of a sequencer started at step `0`
(`startSequencer` resets `currentStep = 0`) with `randomness = 0`; no random
draw is consumed on that path. -/
def seqPointerAfter : ℕ → ℤ
  | 0 => 0
  | n + 1 => advanceSequencerStep 0 (seqPointerAfter n) 0 0

/-- C7: policy (a), the `HimalayanSynth` `advanceSequencerStep`.  With
`randomness = 0` every tick is `+1 mod 16`, so from step `0` the pointer
visits `0, 1, ..., 15, 0, 1, ...` exactly.  With `randomness ≥ 1` the pointer
is set to `⌊16 * r⌋` for the fresh draw `r`, independently of the current
step, landing in `{0..15}` and hitting `k` exactly for the draws in
`[k/16, (k+1)/16)` — the uniform image of the draw.  For `0 < randomness < 1`
the tick jumps, with probability `randomness` (that is, exactly when the test
draw is below `randomness`), by a bounded offset `|jump| ≤ ⌈randomness * 15⌉`
wrapped mod 16, and otherwise advances sequentially. -/
theorem advanceSequencerStep_policy (rnd r1 r2 : ℚ) (step : ℤ) :
    (advanceSequencerStep 0 step r1 r2 = (step + 1) % 16) ∧
    (∀ n : ℕ, seqPointerAfter n = (n : ℤ) % 16) ∧
    (1 ≤ rnd → 0 ≤ r1 → r1 < 1 →
      advanceSequencerStep rnd step r1 r2 = ⌊r1 * 16⌋ ∧
      0 ≤ ⌊r1 * 16⌋ ∧ ⌊r1 * 16⌋ < 16 ∧
      (∀ k : ℤ, ⌊r1 * 16⌋ = k ↔ (k : ℚ) / 16 ≤ r1 ∧ r1 < ((k : ℚ) + 1) / 16)) ∧
    (0 < rnd → rnd < 1 → r1 < rnd → 0 ≤ r2 → r2 < 1 →
      ∃ jump : ℤ, |jump| ≤ ⌈rnd * 15⌉ ∧
        advanceSequencerStep rnd step r1 r2 = ((step + jump) % 16 + 16) % 16 ∧
        0 ≤ advanceSequencerStep rnd step r1 r2 ∧
        advanceSequencerStep rnd step r1 r2 < 16) ∧
    (0 < rnd → rnd < 1 → rnd ≤ r1 →
      advanceSequencerStep rnd step r1 r2 = (step + 1) % 16) := by
  refine ⟨by simp [advanceSequencerStep], ?_, ?_, ?_, ?_⟩
  · intro n
    induction n with
    | zero => simp [seqPointerAfter]
    | succ m ih =>
        show advanceSequencerStep 0 (seqPointerAfter m) 0 0 = ((m + 1 : ℕ) : ℤ) % 16
        rw [ih]
        simp only [advanceSequencerStep, if_pos rfl]
        push_cast
        omega
  · intro hge hr0 hr1
    have hne : rnd ≠ 0 := by intro hc; rw [hc] at hge; norm_num at hge
    have heq : advanceSequencerStep rnd step r1 r2 = ⌊r1 * 16⌋ := by
      simp only [advanceSequencerStep, if_neg hne, if_pos hge]
    refine ⟨heq, ?_, ?_, ?_⟩
    · exact Int.floor_nonneg.2 (by nlinarith)
    · exact Int.floor_lt.2 (by push_cast; nlinarith)
    · intro k
      rw [Int.floor_eq_iff]
      constructor
      · rintro ⟨h1, h2⟩
        constructor <;> [linarith; linarith]
      · rintro ⟨h1, h2⟩
        constructor <;> [linarith; linarith]
  · intro h0 h1 hjump hr2a hr2b
    have hne : rnd ≠ 0 := ne_of_gt h0
    have hnge : ¬ 1 ≤ rnd := by linarith
    have heq : advanceSequencerStep rnd step r1 r2 =
        ((step + (⌊r2 * ((⌈rnd * 15⌉ : ℚ) * 2 + 1)⌋ - ⌈rnd * 15⌉)) % 16 + 16) % 16 := by
      simp only [advanceSequencerStep, if_neg hne, if_neg hnge, if_pos hjump]
    refine ⟨⌊r2 * ((⌈rnd * 15⌉ : ℚ) * 2 + 1)⌋ - ⌈rnd * 15⌉, ?_, heq, ?_, ?_⟩
    · have hJ : (0 : ℤ) ≤ ⌈rnd * 15⌉ := Int.ceil_nonneg (by nlinarith)
      have hJq : (0 : ℚ) ≤ (⌈rnd * 15⌉ : ℚ) := by exact_mod_cast hJ
      have hF0 : (0 : ℤ) ≤ ⌊r2 * ((⌈rnd * 15⌉ : ℚ) * 2 + 1)⌋ :=
        Int.floor_nonneg.2 (by nlinarith)
      have hFlt : ⌊r2 * ((⌈rnd * 15⌉ : ℚ) * 2 + 1)⌋ < ⌈rnd * 15⌉ * 2 + 1 := by
        apply Int.floor_lt.2
        push_cast
        nlinarith
      rw [abs_le]
      omega
    · rw [heq]; omega
    · rw [heq]; omega
  · intro h0 h1 hseq
    have hne : rnd ≠ 0 := ne_of_gt h0
    have hnge : ¬ 1 ≤ rnd := by linarith
    have hnj : ¬ r1 < rnd := by linarith
    simp only [advanceSequencerStep, if_neg hne, if_neg hnge, if_neg hnj]

/-! ### Uninitialized-engine behaviour (`HimalayanSynth` `playNote` and the
    sequencer tick; v2.0.0 `playBowl`) -/

/-- `this.keyMap` of the `HimalayanSynth` variant: keyboard key to scale
degree. -/
def h000KeyMap : List (String × ℕ) :=
  [("a", 0), ("w", 1), ("s", 2), ("e", 3), ("d", 4),
   ("f", 5), ("t", 6), ("g", 7), ("y", 8), ("h", 9),
   ("j", 10), ("i", 11), ("k", 12), ("o", 13), ("l", 14)]

/-- `this.scales.meditation` of the `HimalayanSynth` variant (Hz). -/
def meditationScale : List ℚ :=
  [130.81, 155.56, 174.61, 196.00, 233.08, 261.63, 311.13,
   349.23, 392.00, 466.16, 523.25]

/-- `getNoteFrequency(noteIndex)`:
`scale[noteIndex % scale.length] * Math.pow(2, Math.floor(noteIndex / scale.length))`. -/
def getNoteFrequency (noteIndex : ℕ) : ℚ :=
  meditationScale.getD (noteIndex % meditationScale.length) 0 *
    2 ^ (noteIndex / meditationScale.length)

/-- The modelled `createBowlVoice`: the voice keeps its frequency and the six
harmonic oscillators' random detunes `(Math.random() - 0.5) * 5`, drawn from
stream positions `k, ..., k + 5`. -/
def h000CreateBowlVoice (freq : ℚ) (rands : ℕ → ℚ) (k : ℕ) : H000Voice :=
  { freq := freq, detunes := (List.range 6).map fun i => (rands (k + i) - 0.5) * 5 }

/-- `playNote(keyCode)` of the `HimalayanSynth` variant: a silent no-op when
the engine is not initialized, when the key is not mapped, or when the key is
already held; otherwise creates a bowl voice and registers it under the key.
Keys are taken already lower-cased (the source calls `keyCode.toLowerCase()`
before the lookup).  The function body cannot throw, which the `Except`
result records. -/
def h000PlayNote (s : H000State) (key : String) (rands : ℕ → ℚ) :
    Except String (H000State × Option H000Voice) :=
  if s.isInitialized = false then Except.ok (s, none)
  else
    match (h000KeyMap.find? fun p => p.1 == key).map Prod.snd with
    | none => Except.ok (s, none)
    | some scaleIndex =>
        if (s.activeVoices.find? fun p => p.1 == key).isSome then Except.ok (s, none)
        else
          let voice := h000CreateBowlVoice (getNoteFrequency scaleIndex) rands 0
          Except.ok ({ s with activeVoices := s.activeVoices ++ [(key, voice)] },
            some voice)

/-- The six instruments in the order `playSequencerStep` visits them. -/
def instrList : List Instr :=
  [Instr.bowls, Instr.wind, Instr.strings, Instr.horn,
   Instr.moorhen, Instr.oystercatcher]

/-- One per-instrument trigger inside the `HimalayanSynth` sequencer tick:
`strikeBowl` / `playWind` / `playString` / `playHorn` / `playMoorhen` /
`playOystercatcher` each start with `if (!this.isInitialized) return;`, so an
uninitialized engine produces no voice. -/
def h000TriggerInstr (s : H000State) (inst : Instr) (noteIndex : ℕ) :
    Option (Instr × ℚ × ℚ) :=
  if s.isInitialized = false then none
  else some (inst, getNoteFrequency noteIndex, s.instrumentVolumes inst)

/-- `playSequencerStep()` of the `HimalayanSynth` variant: for each instrument
in order, reads the cell at `currentStep` and triggers the instrument's play
function when the cell is active; the tick mutates none of the modelled
state, so only the list of triggered voices is returned. -/
def h000PlaySequencerStep (s : H000State) : List (Instr × ℚ × ℚ) :=
  instrList.filterMap fun inst =>
    match (s.patterns inst)[s.currentStep]? with
    | some cell => if cell.active then h000TriggerInstr s inst cell.noteIndex else none
    | none => none

/-- A v2.0.0 synth on which `init()` has not run: `audioContext` is null. -/
def v2Uninitialized : V2Synth :=
  { initialized := false
    pitchBend := 0
    bowlsVolume := 0.7
    droneActive := false
    droneBaseNote := 0
    droneTargetVolume := 0.3
    droneOscillators := []
    nextOscId := 0
    stoppedOscIds := []
    pendingStops := []
    voices := [] }

/-- C8 counterexample: on the uninitialized v2.0.0 synth, `playBowl` is not a
silent no-op — it reads `this.audioContext.currentTime` off a null
`audioContext` and throws, because none of the v2.0.0 play functions checks
for initialization. -/
theorem uninitialized_playBowl_throws :
    v2PlayBowl v2Uninitialized 0 =
      Except.error "TypeError: cannot read currentTime of null audioContext" := rfl

/-- C8 (amended): in the `HimalayanSynth` variant every trigger is guarded —
`playNote` on an uninitialized engine returns without throwing, leaves the
state unchanged and produces no voice, and a sequencer tick triggers nothing
because each per-instrument play function checks `isInitialized` itself. The
v2.0.0 `synth.js` play functions carry no such guard and fault on the null
audio context instead (see the counterexample). -/
theorem uninitialized_trigger_is_noop (s : H000State) (key : String)
    (rands : ℕ → ℚ) (t : V2Synth) (n : ℕ) :
    (s.isInitialized = false → h000PlayNote s key rands = Except.ok (s, none)) ∧
    (s.isInitialized = false → h000PlaySequencerStep s = []) ∧
    (t.initialized = false → ∃ msg, v2PlayBowl t n = Except.error msg) := by
  refine ⟨fun h => ?_, fun h => ?_, fun h => ?_⟩
  · simp [h000PlayNote, h]
  · unfold h000PlaySequencerStep
    refine List.filterMap_eq_nil_iff.2 fun inst _ => ?_
    cases hcell : (s.patterns inst)[s.currentStep]? with
    | none => simp
    | some cell => simp [h000TriggerInstr, h, ite_self]
  · refine ⟨"TypeError: cannot read currentTime of null audioContext", ?_⟩
    simp [v2PlayBowl, h]

/-! ### Sequencer cell toggling (`HimalayanSynth` `toggleSequencerStep`) -/

/-- Setting a list entry to the value it already holds changes nothing. -/
theorem set_of_getElem?_eq {α : Type*} (l : List α) (i : ℕ) (c : α)
    (h : l[i]? = some c) : l.set i c = l := by
  induction l generalizing i with
  | nil => simp at h
  | cons a t ih =>
      cases i with
      | zero =>
          simp only [List.getElem?_cons_zero, Option.some.injEq] at h
          subst h
          rfl
      | succ j =>
          simp only [List.getElem?_cons_succ] at h
          show a :: t.set j c = a :: t
          rw [ih j h]

/-- `toggleSequencerStep(instrument, stepIndex)` of the `HimalayanSynth`
variant: when `this.sequencer[instrument][stepIndex]` exists, flips the cell's
`active` flag in place (the note index is untouched) and returns the new
active state; otherwise returns `false` and changes nothing. -/
def toggleSequencerStep (pats : Instr → List Cell) (inst : Instr) (idx : ℕ) :
    Bool × (Instr → List Cell) :=
  match (pats inst)[idx]? with
  | some cell =>
      let newCell : Cell := { cell with active := !cell.active }
      (newCell.active, Function.update pats inst ((pats inst).set idx newCell))
  | none => (false, pats)

/-- Reduction of `toggleSequencerStep` on an existing cell. -/
theorem toggleSequencerStep_eq (pats : Instr → List Cell) (inst : Instr)
    (idx : ℕ) (cell : Cell) (h : (pats inst)[idx]? = some cell) :
    toggleSequencerStep pats inst idx =
      (!cell.active,
        Function.update pats inst
          ((pats inst).set idx ⟨cell.noteIndex, !cell.active⟩)) := by
  simp only [toggleSequencerStep, h]

/-- C9: toggling an existing sequencer cell returns its new active state, the
first toggle flips only the active flag and keeps the note index, and
toggling the same cell twice restores the patterns — original active state
and original note index included — exactly. -/
theorem toggleSequencerStep_involutive (pats : Instr → List Cell) (inst : Instr)
    (idx : ℕ) (cell : Cell) (h : (pats inst)[idx]? = some cell) :
    (toggleSequencerStep pats inst idx).1 = !cell.active ∧
    ((toggleSequencerStep pats inst idx).2 inst)[idx]? =
      some ⟨cell.noteIndex, !cell.active⟩ ∧
    (toggleSequencerStep (toggleSequencerStep pats inst idx).2 inst idx).1 =
      cell.active ∧
    (toggleSequencerStep (toggleSequencerStep pats inst idx).2 inst idx).2 =
      pats := by
  obtain ⟨n0, b0⟩ := cell
  have hidx : idx < (pats inst).length := by
    rcases List.getElem?_eq_some.1 h with ⟨hlt, _⟩
    exact hlt
  have h1 := toggleSequencerStep_eq pats inst idx ⟨n0, b0⟩ h
  have hfst : (toggleSequencerStep pats inst idx).1 = !b0 := by rw [h1]
  have hsnd : (toggleSequencerStep pats inst idx).2 =
      Function.update pats inst ((pats inst).set idx ⟨n0, !b0⟩) := by rw [h1]
  have h2 : ((toggleSequencerStep pats inst idx).2 inst)[idx]? = some ⟨n0, !b0⟩ := by
    rw [hsnd, Function.update_same]
    exact List.getElem?_set_eq_of_lt _ hidx
  have h3 := toggleSequencerStep_eq (toggleSequencerStep pats inst idx).2 inst idx
    ⟨n0, !b0⟩ h2
  have h3fst : (toggleSequencerStep (toggleSequencerStep pats inst idx).2 inst idx).1 =
      !(!b0) := by rw [h3]
  have h3snd : (toggleSequencerStep (toggleSequencerStep pats inst idx).2 inst idx).2 =
      Function.update (toggleSequencerStep pats inst idx).2 inst
        (((toggleSequencerStep pats inst idx).2 inst).set idx ⟨n0, !(!b0)⟩) := by
    rw [h3]
  refine ⟨hfst, h2, ?_, ?_⟩
  · rw [h3fst, Bool.not_not]
  · rw [h3snd, hsnd, Function.update_same, Bool.not_not, List.set_set,
      set_of_getElem?_eq _ _ _ h, Function.update_idem]
    exact Function.update_eq_self inst pats

/-- The default sequencer patterns of the `HimalayanSynth` variant:
`Array(16).fill(null).map((_, i) => ({ noteIndex: i % 7, active: false }))`
for every instrument. -/
def h000DefaultPatterns : Instr → List Cell :=
  fun _ => (List.range 16).map fun i => ⟨i % 7, false⟩

/-- Witness for C9: toggling cell 0 of the bowls row twice on the default
patterns. -/
theorem toggleSequencerStep_involutive_witness :
    (toggleSequencerStep h000DefaultPatterns Instr.bowls 0).1 =
      !(Cell.mk 0 false).active ∧
    ((toggleSequencerStep h000DefaultPatterns Instr.bowls 0).2 Instr.bowls)[0]? =
      some ⟨(Cell.mk 0 false).noteIndex, !(Cell.mk 0 false).active⟩ ∧
    (toggleSequencerStep
        (toggleSequencerStep h000DefaultPatterns Instr.bowls 0).2 Instr.bowls 0).1 =
      (Cell.mk 0 false).active ∧
    (toggleSequencerStep
        (toggleSequencerStep h000DefaultPatterns Instr.bowls 0).2 Instr.bowls 0).2 =
      h000DefaultPatterns :=
  toggleSequencerStep_involutive h000DefaultPatterns Instr.bowls 0 ⟨0, false⟩ (by decide)

/-! ### MIDI note-on handling (`ui.js` `handleMIDINoteOn`) -/

/-- The seven instruments of the v2.0.0 UI (`midi.channelMap`). -/
inductive UiInstr where
  | bowls | wind | strings | horn | moorhen | oystercatcher | stick
deriving DecidableEq, Repr

/-- `midi.channelMap`: MIDI channels 0-6 to instruments. -/
def uiChannelMap : List UiInstr :=
  [UiInstr.bowls, UiInstr.wind, UiInstr.strings, UiInstr.horn,
   UiInstr.moorhen, UiInstr.oystercatcher, UiInstr.stick]

/-- The `chromaticToScale` table of `midiNoteToScaleIndex` (note mod 12 to
pentatonic degree). -/
def chromaticToScale (noteInOctave : ℕ) : ℤ :=
  [0, 0, 1, 1, 2, 2, 3, 3, 4, 4, 4, 5].getD noteInOctave 0

/-- `midiNoteToScaleIndex(midiNote)` of `ui.js`: octave offset by
`Math.floor((midiNote - 48) / 12)` (floored also below C3), five scale steps
per octave, then `Math.max(0, Math.min(6, scaleIndex % 7))` — JavaScript's
`%` truncates towards zero, which is `Int.tmod`. -/
def midiNoteToScaleIndex (midiNote : ℕ) : ℤ :=
  let noteInOctave := midiNote % 12
  let octaveOffset : ℤ := Int.fdiv ((midiNote : ℤ) - 48) 12
  let scaleIndex : ℤ := chromaticToScale noteInOctave + octaveOffset * 5
  max 0 (min 6 (Int.tmod scaleIndex 7))

/-- A voice as `handleMIDINoteOn` triggers it: the chosen instrument, the
scale index, and the volume `playInstrument` reads at the trigger. -/
structure MidiPlayed where
  instrument : UiInstr
  noteIndex : ℤ
  volume : ℚ
deriving DecidableEq, Repr

/-- `handleMIDINoteOn(note, velocity, channel)` of `ui.js`: picks the
instrument (channel map for channels 1-6, otherwise the UI-selected one),
maps the note, and — when the index is in range — temporarily scales the
stored instrument volume by `velocity / 127`, triggers the voice against the
scaled value, and restores the original volume before returning. -/
def handleMIDINoteOn (activeInstrument : UiInstr) (vols : UiInstr → ℚ)
    (note velocity channel : ℕ) : (UiInstr → ℚ) × Option MidiPlayed :=
  let instrument :=
    if 1 ≤ channel ∧ channel ≤ 6 then uiChannelMap.getD channel UiInstr.bowls
    else activeInstrument
  let noteIndex := midiNoteToScaleIndex note
  if 0 ≤ noteIndex ∧ noteIndex ≤ 6 then
    let velocityScale : ℚ := (velocity : ℚ) / 127
    let originalVolume := vols instrument
    let vols1 := Function.update vols instrument (originalVolume * velocityScale)
    let played : MidiPlayed := ⟨instrument, noteIndex, vols1 instrument⟩
    let vols2 := Function.update vols1 instrument originalVolume
    (vols2, some played)
  else (vols, none)

/-- C10: handling a MIDI note-on leaves the stored per-instrument volumes
exactly as they were — the velocity scaling is applied transiently, baked
into the one triggered voice (whose volume is the stored volume times
`velocity / 127`), and the stored value is restored before the handler
returns. -/
theorem handleMIDINoteOn_preserves_volumes (activeInstrument : UiInstr)
    (vols : UiInstr → ℚ) (note velocity channel : ℕ) :
    (handleMIDINoteOn activeInstrument vols note velocity channel).1 = vols ∧
    (∀ p, (handleMIDINoteOn activeInstrument vols note velocity channel).2 = some p →
      p.volume = vols p.instrument * ((velocity : ℚ) / 127)) := by
  simp only [handleMIDINoteOn]
  split
  · constructor
    · simp only [Function.update_idem]
      exact Function.update_eq_self _ vols
    · intro p hp
      simp only [Option.some.injEq] at hp
      subst hp
      simp [Function.update_same]
  · exact ⟨rfl, fun p hp => by simp at hp⟩
